/-
Verification of the html2doc conversion pipeline.

This file gives a shallow embedding of the core of the `html2doc`
repository (src/html2doc/graph.py, llm.py, models.py, runner.py) and
proves properties of the embedded definitions.  Python strings are
modelled as Lean `String`s; Python `str.strip`, `str.join`, `in`,
`str.ljust` are re-implemented character-list-wise so that every
definition is executable and provable.  HTML parsing (BeautifulSoup)
is abstracted: a parsed document is a list of block-level elements in
document order together with the full plain-text extraction, exactly
the data `_extract_sections_and_assets` reads off the soup.
-/
import Mathlib

set_option maxHeartbeats 1000000

namespace Html2doc

/-! ## Python string primitives -/

/-- Python whitespace test used by `str.strip` (restricted to the ASCII
whitespace that can actually occur in the embedded strings). -/
def isPyWS (c : Char) : Bool := c.isWhitespace

/-- Character-list version of Python `str.strip`: drop whitespace from
both ends. -/
def stripChars (l : List Char) : List Char :=
  ((l.dropWhile isPyWS).reverse.dropWhile isPyWS).reverse

/-- Python `str.strip`. -/
def pyStrip (s : String) : String := String.mk (stripChars s.data)

/-- Python `str.lstrip`. -/
def pyLStrip (s : String) : String := String.mk (s.data.dropWhile isPyWS)

/-- Python `sep.join(parts)`. -/
def pyJoin (sep : String) : List String → String
  | [] => ""
  | [x] => x
  | x :: y :: rest => x ++ sep ++ pyJoin sep (y :: rest)

/-- Is `pre` a prefix of `l` (character lists)? -/
def isPrefixChars : List Char → List Char → Bool
  | [], _ => true
  | _ :: _, [] => false
  | a :: as, b :: bs => a == b && isPrefixChars as bs

/-- Does `pat` occur inside `s` (character lists)?  Models Python `in`. -/
def containsChars (s pat : List Char) : Bool :=
  match s with
  | [] => pat.isEmpty
  | _ :: rest => isPrefixChars pat s || containsChars rest pat

/-- Python `pat in s` (substring test). -/
def pyIn (pat s : String) : Bool := containsChars s.data pat.data

/-- Python `s.startswith(pre)`. -/
def pyStartsWith (s pre : String) : Bool := isPrefixChars pre.data s.data

/-- Python `s.endswith(suf)`. -/
def pyEndsWith (s suf : String) : Bool :=
  isPrefixChars suf.data.reverse s.data.reverse

/-- Python `s[n:]` (drop the first `n` characters). -/
def pyDrop (s : String) (n : Nat) : String := String.mk (s.data.drop n)

/-- Python `s[:-n]` for `n ≤ len(s)` (drop the last `n` characters). -/
def pyDropRight (s : String) (n : Nat) : String :=
  String.mk (s.data.take (s.data.length - n))

/-- Python `s[:n]` (take the first `n` characters). -/
def pyTake (s : String) (n : Nat) : String := String.mk (s.data.take n)

/-- `pat` occurs inside `s`: the propositional substring relation used to
state that an error message names a path. -/
def StrContains (s pat : String) : Prop :=
  ∃ a b, s.data = a ++ pat.data ++ b

/-- Truthiness of an optional string in Python (`None` and `""` are falsy). -/
def optTruthy : Option String → Bool
  | none => false
  | some s => !(s == "")

/-- Python `x if x else None` on an optional string: the value when truthy,
otherwise `None`.  Used to model `or`-chains and conditional `str(...)`. -/
def trOpt : Option String → Option String
  | none => none
  | some s => if s == "" then none else some s

/-- Python `str(x)` where `x` is an optional string (`str(None) = "None"`). -/
def pyStrOfOpt : Option String → String
  | none => "None"
  | some s => s

/-! ## Data model (models.py) -/

/-- `SectionChunk` from models.py: a logical section of the HTML input. -/
structure SectionChunk where
  identifier : String
  heading : Option String
  level : Nat
  body : String
  order : Nat
  deriving Repr, DecidableEq

/-- `Asset` from models.py: an embedded image. -/
structure Asset where
  identifier : String
  src : String
  alt : Option String
  deriving Repr, DecidableEq

/-- `KnowledgeUnit` from models.py. -/
structure KnowledgeUnit where
  identifier : String
  title : String
  summary : String
  steps : List String
  prerequisites : List String
  related_queries : List String
  tags : List String
  source_section : Option String
  deriving Repr, DecidableEq

/-- `RelationEdge` from models.py. -/
structure RelationEdge where
  source_id : String
  target_id : String
  relation : String
  reason : String
  deriving Repr, DecidableEq

/-- `ValidationReport` from models.py. -/
structure ValidationReport where
  valid : Bool
  issues : List String
  deriving Repr, DecidableEq

/-! ## Table rendering (graph.py `_table_to_markdown`) -/

/-- Python `item.ljust(w)`: pad with spaces on the right up to width `w`
(longer strings are returned unchanged). -/
def padCell (s : String) (w : Nat) : String :=
  s ++ String.mk (List.replicate (w - s.length) ' ')

/-- `"-" * w`: a dash-filled separator cell of width `w`. -/
def dashCell (w : Nat) : String := String.mk (List.replicate w '-')

/-- The `fmt_row` lambda of `_table_to_markdown`. -/
def fmtTableRow (widths : List Nat) (items : List String) : String :=
  "| " ++ pyJoin " | " (List.zipWith padCell items widths) ++ " |"

/-- The header separator line of `_table_to_markdown`. -/
def tableSeparatorRow (widths : List Nat) : String :=
  "| " ++ pyJoin " | " (widths.map dashCell) ++ " |"

/-- `row + [""] * (len(header) - len(row))` then `[: len(header)]`. -/
def padRowTo (n : Nat) (row : List String) : List String :=
  (row ++ List.replicate (n - row.length) "").take n

/-- `_table_to_markdown` from graph.py, over the already-extracted cell
texts of the table rows (`rows` holds one entry per `<tr>`, the cell
texts of its `th`/`td` children; rows with no cells are dropped by the
`if cols` guard). -/
def tableToMarkdown (rows0 : List (List String)) : String :=
  match rows0.filter (fun r => !r.isEmpty) with
  | [] => ""
  | header :: body =>
    let widths := header.map (fun col => max col.length 3)
    pyJoin "\n"
      (fmtTableRow widths header ::
        tableSeparatorRow widths ::
        body.map (fun row => fmtTableRow widths (padRowTo header.length row)))

/-- Modelled from the spec words of C2 only (not from the source): the
same grid renderer but with each column width taken as the widest cell
in that column across all rows (3-character minimum).  Used to compare
the specified behaviour against `tableToMarkdown`. -/
def columnWidthsAllRows (header : List String) (body : List (List String)) : List Nat :=
  (List.range header.length).map fun j =>
    max 3 (((header :: body).map fun r => (r.getD j "").length).foldr max 0)

/-- Modelled from the spec words of C2 only: renderer whose cells are
padded to the widest cell of their column. -/
def tableToMarkdownColumnPadded (rows0 : List (List String)) : String :=
  match rows0.filter (fun r => !r.isEmpty) with
  | [] => ""
  | header :: body =>
    let widths := columnWidthsAllRows header body
    pyJoin "\n"
      (fmtTableRow widths header ::
        tableSeparatorRow widths ::
        body.map (fun row => fmtTableRow widths (padRowTo header.length row)))

/-! ## Structural extraction (graph.py `_extract_sections_and_assets`) -/

/-- A block-level element matched by the extractor's `find_all` call, in
document order.  The carried strings are the values BeautifulSoup's
`get_text` would return for the element (HTML parsing itself is
abstracted). -/
inductive HtmlElem where
  | heading (text : String) (level : Nat)
  | para (text : String)
  | listItem (text : String)
  | table (rows : List (List String))
  | pre (text : String)
  | code (text : String)
  deriving Repr, DecidableEq

/-- `_element_text` from graph.py: tables become a Markdown grid,
`pre`/`code` become a fenced block, other elements their collapsed text. -/
def elementText : HtmlElem → String
  | .heading t _ => t
  | .para t => t
  | .listItem t => t
  | .table rows => tableToMarkdown rows
  | .pre t => "```\n" ++ t ++ "\n```"
  | .code t => "```\n" ++ t ++ "\n```"

/-- A parsed HTML document as consumed by the extractor: the matched
block elements in document order, the full plain-text extraction
(`soup.get_text(" ", strip=True)`), and the `img` tags
(`src` attribute, `alt` attribute). -/
structure HtmlDoc where
  elements : List HtmlElem
  fullText : String
  images : List (Option String × Option String)
  deriving Repr

/-- The `"\n".join(line for line in buffer if line.strip()).strip()` step
of the extractor's `flush` closure. -/
def flushText (buffer : List String) : String :=
  pyStrip (pyJoin "\n" (buffer.filter (fun line => !(pyStrip line == ""))))

/-- The `flush` closure of `_extract_sections_and_assets`: emit a section
when the buffered text is non-empty, advancing the order counter. -/
def flushSection (heading : Option String) (level : Nat) (buffer : List String)
    (order : Nat) : List SectionChunk × Nat :=
  let text := flushText buffer
  if text == "" then ([], order)
  else ([⟨"sec-" ++ toString order, heading, level, text, order⟩], order + 1)

/-- The element scan of `_extract_sections_and_assets`: headings flush the
buffer and update the current heading/level, other elements append their
non-empty text to the buffer; a final flush closes the last section. -/
def extractLoop (heading : Option String) (level : Nat) (buffer : List String)
    (order : Nat) : List HtmlElem → List SectionChunk
  | [] => (flushSection heading level buffer order).1
  | .heading t lv :: rest =>
    let flushed := flushSection heading level buffer order
    flushed.1 ++ extractLoop (some t) lv [] flushed.2 rest
  | el :: rest =>
    let text := elementText el
    extractLoop heading level (if text == "" then buffer else buffer ++ [text]) order rest

/-- The asset pass of `_extract_sections_and_assets`:
`Asset(identifier=f"asset-{idx}", src=img.get("src", ""), alt=img.get("alt"))`. -/
def extractAssets (images : List (Option String × Option String)) : List Asset :=
  images.enum.map fun p => ⟨"asset-" ++ toString (p.1 + 1), p.2.1.getD "", p.2.2⟩

/-- `_extract_sections_and_assets` from graph.py, including the fallback
single section over the full text when the scan produced no sections. -/
def extractSectionsAndAssets (doc : HtmlDoc) : List SectionChunk × List Asset :=
  let assets := extractAssets doc.images
  let sections := extractLoop none 1 [] 1 doc.elements
  if sections.isEmpty then
    if doc.fullText == "" then ([], assets)
    else ([⟨"sec-1", some "全文", 1, doc.fullText, 1⟩], assets)
  else (sections, assets)

/-- Well-formedness of an extracted section list relative to a starting
order index: the `i`-th section has order `start + i`, the matching
identifier, and a body that stays non-empty after stripping. -/
def SectionsWF (start : Nat) (secs : List SectionChunk) : Prop :=
  ∀ i (h : i < secs.length),
    (secs.get ⟨i, h⟩).order = start + i ∧
    (secs.get ⟨i, h⟩).identifier = "sec-" ++ toString (start + i) ∧
    pyStrip (secs.get ⟨i, h⟩).body ≠ ""

/-! ## Outline builder (graph.py `_build_outline`) -/

/-- Python `s.splitlines()` restricted to `\n`-separated text with no
trailing newline (bodies are stripped before the call, so no leading or
trailing newline can occur). -/
def pySplitlines (s : String) : List String :=
  if s == "" then [] else s.splitOn "\n"

/-- `_build_outline` from graph.py. -/
def buildOutline (sections : List SectionChunk) : String :=
  if sections.isEmpty then ""
  else
    pyJoin "\n" (sections.map fun sec =>
      let heading := (trOpt sec.heading).getD "(無題セクション)"
      let indent := String.mk (List.replicate (2 * (max (sec.level - 1) 0)) ' ')
      let preview := pySplitlines (pyStrip sec.body)
      let firstLine := pyTake (preview.headD "") 80
      let suffix := if firstLine == "" then "" else " - " ++ firstLine
      indent ++ "- " ++ heading ++ suffix)

/-! ## Generation-response parsing (llm.py) -/

/-- A parsed generation response object for knowledge extraction, i.e. a
JSON object restricted to the keys `extract_knowledge` and
`KnowledgeUnit.from_dict` read.  `none` fields model absent keys; string
fields carry the JSON string value. -/
structure KUDict where
  id : Option String := none
  identifier : Option String := none
  title : Option String := none
  summary : Option String := none
  steps : List String := []
  prerequisites : List String := []
  related_queries : List String := []
  tags : List String := []
  source_section : Option String := none
  deriving Repr, DecidableEq

/-- A parsed generation response object for relation linking, restricted
to the keys `RelationEdge.from_dict` reads. -/
structure RelDict where
  source_id : Option String := none
  target_id : Option String := none
  relation : Option String := none
  reason : Option String := none
  deriving Repr, DecidableEq

/-- `KnowledgeUnit.from_dict` from models.py.  The identifier is the
first truthy value of `id`, `identifier`, `title` (raising when all are
falsy); list fields keep only truthy entries; `source_section` is kept
only when truthy. -/
def kuFromDict (d : KUDict) : Except String KnowledgeUnit :=
  match trOpt d.id <|> trOpt d.identifier <|> trOpt d.title with
  | none => .error "KnowledgeUnit には `id` もしくは `title` が必要です。"
  | some v =>
    .ok
      { identifier := v
        title := d.title.getD ""
        summary := d.summary.getD ""
        steps := d.steps.filter (fun s => !(s == ""))
        prerequisites := d.prerequisites.filter (fun s => !(s == ""))
        related_queries := d.related_queries.filter (fun s => !(s == ""))
        tags := d.tags.filter (fun s => !(s == ""))
        source_section := trOpt d.source_section }

/-- `RelationEdge.from_dict` from models.py: raises when either endpoint
is falsy. -/
def relationEdgeFromDict (d : RelDict) : Except String RelationEdge :=
  if !(optTruthy d.source_id) || !(optTruthy d.target_id) then
    .error "RelationEdge には `source_id` と `target_id` が必要です。"
  else
    .ok
      { source_id := pyStrOfOpt d.source_id
        target_id := pyStrOfOpt d.target_id
        relation := pyStrOfOpt d.relation
        reason := d.reason.getD "" }

/-- Processing of one truthy parsed object at 1-based position `idx`:
synthesize `{section-id}-ku-{idx}` as `id` when both `id` and
`identifier` are falsy, force `source_section`, then build the unit. -/
def processKUItem (secId : String) (idx : Nat) (d : KUDict) :
    Except String KnowledgeUnit :=
  kuFromDict
    { (if !(optTruthy d.id) && !(optTruthy d.identifier)
       then { d with id := some (secId ++ "-ku-" ++ toString idx) } else d) with
      source_section := some secId }

/-- The loop body of `MarkdownGenerator.extract_knowledge` over the parsed
response array.  In the parsed array a falsy entry (`null`, `{}`, `0`,
`""`) is modelled as `none` and is skipped by the `if not item: continue`
guard; `idx` is the 1-based `enumerate` counter over all entries. -/
def extractKnowledgeAux (secId : String) : Nat → List (Option KUDict) →
    Except String (List KnowledgeUnit)
  | _, [] => .ok []
  | idx, none :: rest => extractKnowledgeAux secId (idx + 1) rest
  | idx, some d :: rest =>
    match processKUItem secId idx d with
    | .error e => .error e
    | .ok u =>
      match extractKnowledgeAux secId (idx + 1) rest with
      | .error e => .error e
      | .ok us => .ok (u :: us)

/-- `MarkdownGenerator.extract_knowledge` from llm.py, with the generation
call abstracted: `data` is the parsed JSON array of the response. -/
def extractKnowledge (sec : SectionChunk) (data : List (Option KUDict)) :
    Except String (List KnowledgeUnit) :=
  extractKnowledgeAux sec.identifier 1 data

/-- `[RelationEdge.from_dict(item) for item in data if item]`: a raise in
`from_dict` aborts the whole comprehension. -/
def edgesFromDicts : List RelDict → Except String (List RelationEdge)
  | [] => .ok []
  | d :: rest =>
    match relationEdgeFromDict d with
    | .error e => .error e
    | .ok edge =>
      match edgesFromDicts rest with
      | .error e => .error e
      | .ok es => .ok (edge :: es)

/-- `MarkdownGenerator.link_relations` from llm.py, with the generation
call abstracted: `data` is the parsed JSON array of the response (`none`
entries model falsy array elements, dropped by the `if item` filter). -/
def linkRelations (knowledge : List KnowledgeUnit) (data : List (Option RelDict)) :
    Except String (List RelationEdge) :=
  if knowledge.isEmpty then .ok []
  else edgesFromDicts (data.filterMap id)

/-- The fence-stripping front half of `MarkdownGenerator._parse_json`:
`text.strip()`, removal of one leading ` ```json `/` ``` ` marker, and of
a trailing ` ``` ` marker, re-stripping after each removal. -/
def stripFence (text : String) : String :=
  let cleaned := pyStrip text
  if pyStartsWith cleaned "```" then
    let c1 := pyStrip (if pyStartsWith cleaned "```json" then pyDrop cleaned 7 else pyDrop cleaned 3)
    if pyEndsWith c1 "```" then pyStrip (pyDropRight c1 3) else c1
  else cleaned

/-- Outcome of `json.loads` as used by `_parse_json`: a JSON array of
items, a single JSON object, or any other JSON value. -/
inductive JParsed (α : Type) where
  | jlist (items : List α)
  | jdict (d : α)
  | jother

/-- `MarkdownGenerator._parse_json` from llm.py.  `loads` abstracts
`json.loads` (its `.error` models a `JSONDecodeError`); the function
returns `[]` without parsing when the cleaned text is empty, wraps a
lone object into a one-element list, and raises on any other JSON value. -/
def parseJson {α : Type} (loads : String → Except String (JParsed α)) (text : String) :
    Except String (List α) :=
  let cleaned := stripFence text
  if cleaned == "" then .ok []
  else
    match loads cleaned with
    | .error e => .error e
    | .ok (.jlist items) => .ok items
    | .ok (.jdict d) => .ok [d]
    | .ok .jother => .error "LLM からの JSON 応答が不正です。"

/-! ## Output validation (graph.py `_validate_markdown`) -/

/-- Issue text for an empty output. -/
def emptyIssue : String := "出力が空です。"

/-- Issue text for a missing leading title heading. -/
def headingIssue : String := "先頭にタイトル見出し (# ...) がありません。"

/-- Issue text for knowledge coverage. -/
def coverageIssue : String := "抽出されたナレッジの多くが Markdown に反映されていません。"

/-- The first two accumulated issues of `_validate_markdown` (empty
output, missing leading heading), before the coverage check. -/
def baseIssues (markdown : String) : List String :=
  if !(pyStrip markdown == "") && !(pyStartsWith (pyLStrip (pyStrip markdown)) "#")
  then (if pyStrip markdown == "" then [emptyIssue] else []) ++ [headingIssue]
  else (if pyStrip markdown == "" then [emptyIssue] else [])

/-- `missing_titles` of `_validate_markdown`: among the first 10 knowledge
units, the non-empty titles not contained in the markdown. -/
def missingTitlesOf (markdown : String) (knowledge : List KnowledgeUnit) : List String :=
  ((knowledge.take 10).filter
    (fun item => !(item.title == "") && !(pyIn item.title markdown))).map
    (fun item => item.title)

/-- The full issue list of `_validate_markdown`. -/
def validateIssues (markdown : String) (knowledge : List KnowledgeUnit) : List String :=
  if (missingTitlesOf markdown knowledge).length ≥
      max 3 ((knowledge.take 10).length / 2 + 1)
  then baseIssues markdown ++ [coverageIssue] else baseIssues markdown

/-- `_validate_markdown` from graph.py. -/
def validateMarkdown (markdown : String) (knowledge : List KnowledgeUnit) :
    ValidationReport :=
  ⟨(validateIssues markdown knowledge).isEmpty, validateIssues markdown knowledge⟩

/-! ## Pipeline state machine (graph.py `build_pipeline`) -/

/-- `DocumentMetadata` from models.py (paths as strings). -/
structure DocMeta where
  inputPath : String
  outputPath : String
  title : Option String := none
  context : Option String := none
  deriving Repr

/-- Abstraction of the generation capability for one document run:
the parsed JSON array returned for the `i`-th knowledge-extraction call
(one per section, in order), the parsed array returned for the relation
call, and the composed Markdown text. -/
structure LLMOracle where
  kuData : Nat → List (Option KUDict)
  relData : List (Option RelDict)
  composed : String

/-- `DocumentState` from graph.py (`total=False`: absent keys are `none`
or the empty list). -/
structure DocState where
  html : Option HtmlDoc := none
  sections : List SectionChunk := []
  assets : List Asset := []
  outline : Option String := none
  knowledge : List KnowledgeUnit := []
  relationships : List RelationEdge := []
  markdown : Option String := none
  report : Option ValidationReport := none

/-- A durable side effect of `_persist_markdown`: the Markdown output
file or the companion JSON record. -/
inductive WriteEvent where
  | primary (path : String)
  | companion (path : String)
  deriving Repr, DecidableEq

/-- Outcome of a pipeline run: terminal state or error, the write events
performed, and the names of the graph nodes that executed. -/
structure RunResult where
  result : Except String DocState
  writes : List WriteEvent
  executed : List String

/-- One LangGraph node: a state transform that can raise and can write. -/
abbrev Stage := DocState → Except String (DocState × List WriteEvent)

/-- Path of the last `/`-separated component. -/
def lastComponentChars (l : List Char) : List Char :=
  l.foldl (fun acc c => if c == '/' then [] else acc ++ [c]) []

/-- Index of the last `.` of a character list, if any. -/
def lastDotIdx (l : List Char) : Option Nat :=
  ((l.enum.filter (fun p => p.2 == '.')).map (fun p => p.1)).getLast?

/-- `pathlib` stem of a file name: chop the final extension when the dot
is neither leading nor trailing. -/
def stemChars (l : List Char) : List Char :=
  match lastDotIdx l with
  | none => l
  | some i => if 0 < i && i < l.length - 1 then l.take i else l

/-- `Path(p).stem`. -/
def pathStem (p : String) : String := String.mk (stemChars (lastComponentChars p.data))

/-- The directory part of a path, up to and including the last `/`. -/
def dirChars (l : List Char) : List Char :=
  (l.reverse.dropWhile (fun c => !(c == '/'))).reverse

/-- `Path(p).with_suffix(".json")`. -/
def withSuffixJson (p : String) : String :=
  String.mk (dirChars p.data) ++ pathStem p ++ ".json"

/-- `_extract_all_knowledge` from graph.py: one generation call per
section, results concatenated in section order (`i` counts the calls,
selecting the oracle response). -/
def extractAllKnowledge (resp : Nat → List (Option KUDict)) :
    Nat → List SectionChunk → Except String (List KnowledgeUnit)
  | _, [] => .ok []
  | i, s :: rest =>
    match extractKnowledge s (resp i) with
    | .error e => .error e
    | .ok us =>
      match extractAllKnowledge resp (i + 1) rest with
      | .error e => .error e
      | .ok more => .ok (us ++ more)

/-- `_load_html` node: store the (abstracted) loaded document. -/
def loadHtmlStage (doc : HtmlDoc) : Stage := fun st =>
  .ok ({ st with html := some doc }, [])

/-- `_parse_html` node. -/
def parseHtmlStage : Stage := fun st =>
  match st.html with
  | none => .error "KeyError: html"
  | some doc =>
    let sa := extractSectionsAndAssets doc
    .ok ({ st with sections := sa.1, assets := sa.2 }, [])

/-- `_summarize_structure_node`. -/
def summarizeStage : Stage := fun st =>
  .ok ({ st with outline := some (buildOutline st.sections) }, [])

/-- `_extract_knowledge_node`. -/
def extractKnowledgeStage (oracle : LLMOracle) : Stage := fun st =>
  match extractAllKnowledge oracle.kuData 0 st.sections with
  | .error e => .error e
  | .ok ku => .ok ({ st with knowledge := ku }, [])

/-- `_link_relations_node`. -/
def linkRelationsStage (oracle : LLMOracle) : Stage := fun st =>
  match linkRelations st.knowledge oracle.relData with
  | .error e => .error e
  | .ok rels => .ok ({ st with relationships := rels }, [])

/-- `_compose_markdown_node`: the composed text, stripped. -/
def composeStage (oracle : LLMOracle) : Stage := fun st =>
  .ok ({ st with markdown := some (pyStrip oracle.composed) }, [])

/-- `_validate_output` node: raises `ValueError` when the report is
invalid. -/
def validateStage : Stage := fun st =>
  match st.markdown with
  | none => .error "KeyError: markdown"
  | some md =>
    if (validateMarkdown md st.knowledge).valid
    then .ok ({ st with report := some (validateMarkdown md st.knowledge) }, [])
    else .error ("Markdown 検証に失敗しました: " ++
      pyJoin " / " (validateMarkdown md st.knowledge).issues)

/-- `_persist_markdown` node: writes the Markdown file and the companion
JSON record. -/
def persistStage (meta : DocMeta) : Stage := fun st =>
  .ok (st, [.primary meta.outputPath, .companion (withSuffixJson meta.outputPath)])

/-- The node sequence wired by `build_pipeline` (START → load_html → … →
persist_markdown → END). -/
def pipelineStages (doc : HtmlDoc) (oracle : LLMOracle) (meta : DocMeta) :
    List (String × Stage) :=
  [("load_html", loadHtmlStage doc),
   ("parse_html", parseHtmlStage),
   ("summarize_structure", summarizeStage),
   ("extract_knowledge", extractKnowledgeStage oracle),
   ("link_relations", linkRelationsStage oracle),
   ("compose_markdown", composeStage oracle),
   ("validate_output", validateStage),
   ("persist_markdown", persistStage meta)]

/-- Sequential execution of the node list: an error aborts the remaining
nodes; writes and executed node names accumulate in order. -/
def runStages : List (String × Stage) → DocState → RunResult
  | [], st => ⟨.ok st, [], []⟩
  | (name, f) :: rest, st =>
    match f st with
    | .error e => ⟨.error e, [], [name]⟩
    | .ok (st2, ws) =>
      let r := runStages rest st2
      ⟨r.result, ws ++ r.writes, name :: r.executed⟩

/-- `pipeline.invoke({"metadata": metadata})`: run all nodes on the empty
initial state. -/
def runPipeline (doc : HtmlDoc) (oracle : LLMOracle) (meta : DocMeta) : RunResult :=
  runStages (pipelineStages doc oracle meta) {}

/-- The knowledge list a run computes, as a standalone definition (used
to phrase hypotheses about a run without re-running it). -/
def pipelineKnowledgeOf (doc : HtmlDoc) (oracle : LLMOracle) :
    Except String (List KnowledgeUnit) :=
  extractAllKnowledge oracle.kuData 0 (extractSectionsAndAssets doc).1

/-! ## Batch runner (runner.py) -/

/-- `FileConfig` from config.py (paths as strings, already resolved). -/
structure FileCfg where
  input : String
  title : Option String := none
  context : Option String := none
  output : Option String := none
  deriving Repr, DecidableEq

/-- `Path(o).is_absolute()` on POSIX. -/
def isAbsolutePath (p : String) : Bool := pyStartsWith p "/"

/-- `output_dir / name` (with `.resolve()` modelled as the identity on
these already-normalized paths). -/
def joinPath (dir name : String) : String := dir ++ "/" ++ name

/-- `_resolve_output_path` from runner.py: an explicit truthy `output`
wins (absolute as-is, otherwise under the output directory); the default
is `{input-stem}.md` under the output directory. -/
def resolveOutputPath (f : FileCfg) (outputDir : String) : String :=
  match trOpt f.output with
  | some o => if isAbsolutePath o then o else joinPath outputDir o
  | none => joinPath outputDir (pathStem f.input ++ ".md")

/-- `collisions.setdefault(resolved, []).append(file_cfg.input)`: add an
input under its resolved path, preserving first-seen key order. -/
def addToGroups : List (String × List String) → String → String →
    List (String × List String)
  | [], path, inp => [(path, [inp])]
  | (p, xs) :: rest, path, inp =>
    if p == path then (p, xs ++ [inp]) :: rest
    else (p, xs) :: addToGroups rest path inp

/-- The collision dictionary of `_ensure_unique_output_paths`. -/
def buildCollisions (files : List FileCfg) (outputDir : String) :
    List (String × List String) :=
  files.foldl (fun gs f => addToGroups gs (resolveOutputPath f outputDir) f.input) []

/-- First-match lookup in the collision dictionary (keys are unique by
construction of `addToGroups`). -/
def lookupGroup (p : String) : List (String × List String) → List String
  | [] => []
  | (q, xs) :: rest => if q == p then xs else lookupGroup p rest

/-- Insertion step of `sorted(duplicates.items())` (keys are distinct, so
only the path key decides the order). -/
def insertByKey (x : String × List String) :
    List (String × List String) → List (String × List String)
  | [] => [x]
  | y :: ys => if x.1 < y.1 then x :: y :: ys else y :: insertByKey x ys

/-- `sorted(duplicates.items())`. -/
def sortGroups (l : List (String × List String)) : List (String × List String) :=
  l.foldr insertByKey []

/-- The `summary` string of `_ensure_unique_output_paths`. -/
def duplicateSummary (dups : List (String × List String)) : String :=
  pyJoin " / " ((sortGroups dups).map fun g => g.1 ++ ": " ++ pyJoin ", " g.2)

/-- `_ensure_unique_output_paths` from runner.py: raises `ConfigError`
naming every colliding output path with its source inputs. -/
def ensureUniqueOutputPaths (files : List FileCfg) (outputDir : String) :
    Except String Unit :=
  if ((buildCollisions files outputDir).filter (fun g => 1 < g.2.length)).isEmpty
  then .ok ()
  else
    .error
      ("同じ出力ファイルに複数の HTML が割り当てられています。`output` を変更して回避してください。対象: "
        ++ duplicateSummary
          ((buildCollisions files outputDir).filter (fun g => 1 < g.2.length)))

/-- `DocumentResult` from runner.py (the fields the batch contract
exposes; usage counters omitted). -/
structure DocumentResult where
  input : String
  success : Bool
  output_path : Option String := none
  graph_path : Option String := none
  error : Option String := none
  deriving Repr, DecidableEq

/-- The per-document outcome of the `run` loop body, as a function of the
document's own data only: a missing input file yields a failed result, a
pipeline error is caught into a failed result, a completed pipeline
yields a success result with its two paths. -/
def expectedDocResult (inputExists : String → Bool)
    (pipelineRun : Nat → Except String (String × String)) (i : Nat) (f : FileCfg) :
    DocumentResult :=
  if inputExists f.input then
    match pipelineRun i with
    | .ok paths => ⟨f.input, true, some paths.1, some paths.2, none⟩
    | .error e => ⟨f.input, false, none, none, some e⟩
  else ⟨f.input, false, none, none, some ("入力ファイルが見つかりません: " ++ f.input)⟩

/-- The document loop of `run` from runner.py.  `pipelineRun i` abstracts
`pipeline.invoke` for the `i`-th document (returning the output and
companion paths of the final state, or the caught exception's message);
the second component records which documents' pipelines were invoked. -/
def runDocs (inputExists : String → Bool)
    (pipelineRun : Nat → Except String (String × String)) :
    Nat → List FileCfg → List DocumentResult × List Nat
  | _, [] => ([], [])
  | i, f :: rest =>
    if inputExists f.input then
      let res : DocumentResult :=
        match pipelineRun i with
        | .ok paths => ⟨f.input, true, some paths.1, some paths.2, none⟩
        | .error e => ⟨f.input, false, none, none, some e⟩
      let r := runDocs inputExists pipelineRun (i + 1) rest
      (res :: r.1, i :: r.2)
    else
      let r := runDocs inputExists pipelineRun (i + 1) rest
      (⟨f.input, false, none, none,
        some ("入力ファイルが見つかりません: " ++ f.input)⟩ :: r.1, r.2)

/-- `run` from runner.py, from the point where the configuration is
loaded: the uniqueness check runs first and a `ConfigError` aborts the
whole batch before any document is processed; otherwise every configured
document is processed in order. -/
def runBatch (files : List FileCfg) (outputDir : String)
    (inputExists : String → Bool)
    (pipelineRun : Nat → Except String (String × String)) :
    Except String (List DocumentResult) × List Nat :=
  match ensureUniqueOutputPaths files outputDir with
  | .error e => (.error e, [])
  | .ok _ =>
    let r := runDocs inputExists pipelineRun 0 files
    (.ok r.1, r.2)

/-! ## String lemmas -/

theorem stripChars_eq_rdropWhile (l : List Char) :
    stripChars l = List.rdropWhile isPyWS (l.dropWhile isPyWS) := rfl

theorem stripChars_idem (l : List Char) : stripChars (stripChars l) = stripChars l := by
  rw [stripChars_eq_rdropWhile, stripChars_eq_rdropWhile]
  have hm : List.dropWhile isPyWS (List.rdropWhile isPyWS (l.dropWhile isPyWS)) =
      List.rdropWhile isPyWS (l.dropWhile isPyWS) := by
    obtain ⟨t, ht⟩ := List.rdropWhile_prefix isPyWS (l.dropWhile isPyWS)
    cases hmc : List.rdropWhile isPyWS (l.dropWhile isPyWS) with
    | nil => simp
    | cons a m' =>
      rw [hmc] at ht
      have hdw : List.dropWhile isPyWS l = a :: (m' ++ t) := by
        rw [← ht]
        simp
      have hid : List.dropWhile isPyWS (a :: (m' ++ t)) = a :: (m' ++ t) := by
        rw [← hdw, List.dropWhile_idempotent, hdw]
      have hna : isPyWS a = false := by
        by_contra hcon
        have hpa : isPyWS a = true := by
          cases hpc : isPyWS a
          · exact absurd hpc hcon
          · rfl
        rw [List.dropWhile_cons, if_pos hpa] at hid
        have hlen := congrArg List.length hid
        have hle : (List.dropWhile isPyWS (m' ++ t)).length ≤ (m' ++ t).length :=
          (List.dropWhile_suffix _).sublist.length_le
        simp only [List.length_cons] at hlen
        omega
      rw [List.dropWhile_cons, hna]
      simp
  rw [hm, List.rdropWhile_idempotent]

theorem pyStrip_data (s : String) : (pyStrip s).data = stripChars s.data := rfl

theorem pyStrip_idem (s : String) : pyStrip (pyStrip s) = pyStrip s := by
  apply String.ext
  exact stripChars_idem s.data

theorem pyStrip_of_stripped_ne_empty {s : String} (h : pyStrip s = s) (hne : s ≠ "") :
    pyStrip s ≠ "" := by rwa [h]

/-! ## Extractor lemmas (claim C1 machinery) -/

theorem sectionsWF_nil (start : Nat) : SectionsWF start [] := by
  intro i h
  simp at h

theorem sectionsWF_cons {start : Nat} {sec : SectionChunk} {tail : List SectionChunk}
    (h0 : sec.order = start ∧ sec.identifier = "sec-" ++ toString start ∧
      pyStrip sec.body ≠ "")
    (ht : SectionsWF (start + 1) tail) : SectionsWF start (sec :: tail) := by
  intro i h
  match i with
  | 0 =>
    refine ⟨?_, ?_, ?_⟩
    · simpa using h0.1
    · simpa using h0.2.1
    · simpa using h0.2.2
  | (j + 1) =>
    have hj : j < tail.length := by simpa using h
    have := ht j hj
    simpa [Nat.add_assoc, Nat.add_comm 1 j] using this

theorem flushText_stripped_ne {buffer : List String}
    (h : ¬(flushText buffer == "")) : pyStrip (flushText buffer) ≠ "" := by
  have hne : flushText buffer ≠ "" := by
    intro hc
    rw [hc] at h
    simp at h
  have : pyStrip (flushText buffer) = flushText buffer := by
    unfold flushText
    exact pyStrip_idem _
  rwa [this]

theorem flushSection_wf (heading : Option String) (level : Nat)
    (buffer : List String) (order : Nat) :
    SectionsWF order (flushSection heading level buffer order).1 ∧
    (flushSection heading level buffer order).2 =
      order + (flushSection heading level buffer order).1.length := by
  unfold flushSection
  by_cases h : flushText buffer == ""
  · simp only [h, if_true]
    exact ⟨sectionsWF_nil order, rfl⟩
  · simp only [h, if_false]
    refine ⟨sectionsWF_cons ⟨rfl, rfl, flushText_stripped_ne h⟩ (sectionsWF_nil _), rfl⟩

theorem extractLoop_wf (elems : List HtmlElem) :
    ∀ heading level buffer order,
      SectionsWF order (extractLoop heading level buffer order elems) := by
  induction elems with
  | nil =>
    intro heading level buffer order
    exact (flushSection_wf heading level buffer order).1
  | cons el rest ih =>
    intro heading level buffer order
    cases el with
    | heading t lv =>
      show SectionsWF order
        ((flushSection heading level buffer order).1 ++
          extractLoop (some t) lv [] (flushSection heading level buffer order).2 rest)
      cases h : (flushText buffer == "") with
      | true =>
        have hfs : flushSection heading level buffer order = ([], order) := by
          simp [flushSection, h]
        rw [hfs]
        simpa using ih (some t) lv [] order
      | false =>
        have hfs : flushSection heading level buffer order =
            ([⟨"sec-" ++ toString order, heading, level, flushText buffer, order⟩],
              order + 1) := by
          simp [flushSection, h]
        rw [hfs]
        simp only [List.cons_append, List.nil_append]
        refine sectionsWF_cons ⟨rfl, rfl, flushText_stripped_ne ?_⟩
          (ih (some t) lv [] (order + 1))
        simp [h]
    | para t => exact ih heading level _ order
    | listItem t => exact ih heading level _ order
    | table rows => exact ih heading level _ order
    | pre t => exact ih heading level _ order
    | code t => exact ih heading level _ order

/-- C1: for every parsed HTML document, the sections returned by the
structural extractor have order indices that are dense starting at 1
(the `i`-th returned section has order `i + 1` and identifier
`sec-(i+1)`), and no returned section has a body that is empty after
trimming.  The hypothesis records that the document's full plain-text
extraction is already whitespace-trimmed, which `get_text(" ",
strip=True)` guarantees. -/
theorem sections_order_dense_bodies_nonempty (doc : HtmlDoc)
    (hText : pyStrip doc.fullText = doc.fullText) :
    ∀ i (h : i < ((extractSectionsAndAssets doc).1).length),
      (((extractSectionsAndAssets doc).1).get ⟨i, h⟩).order = i + 1 ∧
      (((extractSectionsAndAssets doc).1).get ⟨i, h⟩).identifier =
        "sec-" ++ toString (i + 1) ∧
      pyStrip (((extractSectionsAndAssets doc).1).get ⟨i, h⟩).body ≠ "" := by
  have key : SectionsWF 1 ((extractSectionsAndAssets doc).1) := by
    cases hempty : (extractLoop none 1 [] 1 doc.elements).isEmpty with
    | false =>
      have heq : (extractSectionsAndAssets doc).1 = extractLoop none 1 [] 1 doc.elements := by
        unfold extractSectionsAndAssets
        simp [hempty]
      rw [heq]
      exact extractLoop_wf doc.elements none 1 [] 1
    | true =>
      cases hft : (doc.fullText == "") with
      | true =>
        have heq : (extractSectionsAndAssets doc).1 = [] := by
          unfold extractSectionsAndAssets
          simp [hempty, hft]
        rw [heq]
        exact sectionsWF_nil 1
      | false =>
        have heq : (extractSectionsAndAssets doc).1 =
            [⟨"sec-1", some "全文", 1, doc.fullText, 1⟩] := by
          unfold extractSectionsAndAssets
          simp [hempty, hft]
        rw [heq]
        have hid : ("sec-1" : String) = "sec-" ++ toString 1 := by decide
        refine sectionsWF_cons ⟨rfl, hid, ?_⟩ (sectionsWF_nil 2)
        rw [hText]
        simpa using hft
  intro i h
  have := key i h
  refine ⟨?_, ?_, this.2.2⟩
  · rw [this.1, Nat.add_comm]
  · rw [this.2.1, Nat.add_comm]

/-- Witness for C1 at a concrete document. -/
theorem sections_order_dense_bodies_nonempty_witness :
    pyStrip (HtmlDoc.fullText ⟨[.para "hello"], "hello", []⟩) =
      HtmlDoc.fullText ⟨[.para "hello"], "hello", []⟩ ∧
    (∀ i (h : i < ((extractSectionsAndAssets ⟨[.para "hello"], "hello", []⟩).1).length),
      (((extractSectionsAndAssets ⟨[.para "hello"], "hello", []⟩).1).get ⟨i, h⟩).order = i + 1 ∧
      (((extractSectionsAndAssets ⟨[.para "hello"], "hello", []⟩).1).get ⟨i, h⟩).identifier =
        "sec-" ++ toString (i + 1) ∧
      pyStrip (((extractSectionsAndAssets ⟨[.para "hello"], "hello", []⟩).1).get ⟨i, h⟩).body ≠ "") :=
  ⟨by decide, sections_order_dense_bodies_nonempty ⟨[.para "hello"], "hello", []⟩ (by decide)⟩

/-- C9: for a document with no qualifying block elements but non-empty
text content, the extractor returns exactly one fallback section whose
body is the full plain-text extraction, with heading `全文` ("full
text"), level 1, order 1 and identifier `sec-1`. -/
theorem extractor_fallback_section (doc : HtmlDoc) (hElems : doc.elements = [])
    (hText : doc.fullText ≠ "") :
    (extractSectionsAndAssets doc).1 = [⟨"sec-1", some "全文", 1, doc.fullText, 1⟩] := by
  unfold extractSectionsAndAssets
  rw [hElems]
  have hloop : extractLoop none 1 [] 1 [] = [] := by decide
  rw [hloop]
  have hft : (doc.fullText == "") = false := by
    simp only [beq_eq_false_iff_ne, ne_eq]
    exact hText
  simp [hft]

/-- Witness for C9 at a concrete document. -/
theorem extractor_fallback_section_witness :
    HtmlDoc.elements ⟨[], "full text here", []⟩ = [] ∧
    HtmlDoc.fullText ⟨[], "full text here", []⟩ ≠ "" ∧
    (extractSectionsAndAssets ⟨[], "full text here", []⟩).1 =
      [⟨"sec-1", some "全文", 1, "full text here", 1⟩] :=
  ⟨rfl, by decide,
    extractor_fallback_section ⟨[], "full text here", []⟩ rfl (by decide)⟩

/-! ## Claim C2: table cell widths -/

theorem string_length_mk (l : List Char) : (String.mk l).length = l.length := rfl

/-- C2 counterexample: the claim says cells are padded to the widest cell
in their column, but `_table_to_markdown` computes widths from the header
row alone.  On a table whose single data cell `xxxx` is wider than its
header cell `A`, the code's grid differs from the column-padded grid the
claim describes (header cell padded to 3 instead of 4, separator `---`
instead of `----`). -/
theorem tableToMarkdown_width_counterexample :
    tableToMarkdown [["A"], ["xxxx"]] ≠ tableToMarkdownColumnPadded [["A"], ["xxxx"]] ∧
    tableToMarkdown [["A"], ["xxxx"]] = "| A   |\n| --- |\n| xxxx |" ∧
    tableToMarkdownColumnPadded [["A"], ["xxxx"]] = "| A    |\n| ---- |\n| xxxx |" := by
  refine ⟨by decide, by decide, by decide⟩

/-- C2 amended: the rendered grid pads each cell to the width of its
*header* cell (with a 3-character minimum) — column widths are computed
from the header row only, so a wider data cell is left unpadded — and the
header separator row has one dash-filled cell per header column whose
width matches the padded header cell width. -/
theorem tableToMarkdown_header_widths (rows0 : List (List String))
    (header : List String) (body : List (List String))
    (h : rows0.filter (fun r => !r.isEmpty) = header :: body) :
    tableToMarkdown rows0 =
      pyJoin "\n"
        (fmtTableRow (header.map fun c => max c.length 3) header ::
          tableSeparatorRow (header.map fun c => max c.length 3) ::
          body.map fun row =>
            fmtTableRow (header.map fun c => max c.length 3) (padRowTo header.length row)) ∧
    ∀ c ∈ header,
      (dashCell (max c.length 3)).length = max c.length 3 ∧
      (padCell c (max c.length 3)).length = max c.length 3 := by
  constructor
  · unfold tableToMarkdown
    rw [h]
  · intro c _
    constructor
    · simp [dashCell, string_length_mk]
    · have hle : c.length ≤ max c.length 3 := Nat.le_max_left _ _
      simp only [padCell, String.length_append, string_length_mk, List.length_replicate]
      omega

/-- Witness for the amended C2 at the spec's round-trip example table. -/
theorem tableToMarkdown_header_widths_witness :
    ([["A", "B"], ["x", "y"]].filter (fun r => !r.isEmpty) = [["A", "B"], ["x", "y"]]) ∧
    (tableToMarkdown [["A", "B"], ["x", "y"]] =
      pyJoin "\n"
        (fmtTableRow (["A", "B"].map fun c => max c.length 3) ["A", "B"] ::
          tableSeparatorRow (["A", "B"].map fun c => max c.length 3) ::
          [["x", "y"]].map fun row =>
            fmtTableRow (["A", "B"].map fun c => max c.length 3) (padRowTo 2 row)) ∧
    ∀ c ∈ ["A", "B"],
      (dashCell (max c.length 3)).length = max c.length 3 ∧
      (padCell c (max c.length 3)).length = max c.length 3) :=
  ⟨by decide, tableToMarkdown_header_widths [["A", "B"], ["x", "y"]] ["A", "B"] [["x", "y"]]
    (by decide)⟩

/-! ## Claim C3: relation objects with missing endpoints -/

/-- C3 counterexample: a parsed relation object that is truthy but lacks
`target_id` makes `link_relations` raise the `RelationEdge` `ValueError`
instead of being dropped from the edge list. -/
theorem linkRelations_missing_endpoint_raises :
    linkRelations [⟨"k1", "t", "s", [], [], [], [], none⟩]
        [some { source_id := some "a" }] =
      .error "RelationEdge には `source_id` と `target_id` が必要です。" ∧
    ∀ edges, linkRelations [⟨"k1", "t", "s", [], [], [], [], none⟩]
        [some { source_id := some "a" }] ≠ .ok edges := by
  have h0 : linkRelations [⟨"k1", "t", "s", [], [], [], [], none⟩]
      [some { source_id := some "a" }] =
      .error "RelationEdge には `source_id` と `target_id` が必要です。" := rfl
  refine ⟨h0, ?_⟩
  intro edges hc
  rw [h0] at hc
  exact Except.noConfusion hc

theorem relationEdgeFromDict_ok_of_endpoints {d : RelDict}
    (hs : optTruthy d.source_id = true) (ht : optTruthy d.target_id = true) :
    ∃ e, relationEdgeFromDict d = .ok e := by
  unfold relationEdgeFromDict
  rw [hs, ht]
  exact ⟨_, rfl⟩

theorem relationEdgeFromDict_error_of_missing {d : RelDict}
    (h : optTruthy d.source_id = false ∨ optTruthy d.target_id = false) :
    ∃ msg, relationEdgeFromDict d = .error msg := by
  unfold relationEdgeFromDict
  have hcond : (!(optTruthy d.source_id) || !(optTruthy d.target_id)) = true := by
    rcases h with h | h <;> simp [h]
  rw [hcond]
  exact ⟨_, rfl⟩

theorem edgesFromDicts_error_of_missing {ds : List RelDict} {d : RelDict}
    (hd : d ∈ ds) (h : optTruthy d.source_id = false ∨ optTruthy d.target_id = false) :
    ∃ msg, edgesFromDicts ds = .error msg := by
  induction ds with
  | nil => simp at hd
  | cons d0 rest ih =>
    cases he : relationEdgeFromDict d0 with
    | error e => exact ⟨e, by simp [edgesFromDicts, he]⟩
    | ok edge =>
      have hd0 : d ≠ d0 := by
        intro hc
        subst hc
        obtain ⟨msg, hmsg⟩ := relationEdgeFromDict_error_of_missing h
        rw [hmsg] at he
        exact Except.noConfusion he
      have hdrest : d ∈ rest := by
        rcases List.mem_cons.mp hd with hc | hc
        · exact absurd hc hd0
        · exact hc
      obtain ⟨msg, hmsg⟩ := ih hdrest
      exact ⟨msg, by simp [edgesFromDicts, he, hmsg]⟩

theorem edgesFromDicts_ok_of_endpoints {ds : List RelDict}
    (h : ∀ d ∈ ds, optTruthy d.source_id = true ∧ optTruthy d.target_id = true) :
    ∃ es, edgesFromDicts ds = .ok es ∧ es.length = ds.length := by
  induction ds with
  | nil => exact ⟨[], rfl, rfl⟩
  | cons d0 rest ih =>
    obtain ⟨hs, ht⟩ := h d0 (List.mem_cons_self d0 rest)
    obtain ⟨e, he⟩ := relationEdgeFromDict_ok_of_endpoints hs ht
    obtain ⟨es, hes, hlen⟩ := ih (fun d hd => h d (List.mem_cons_of_mem d0 hd))
    refine ⟨e :: es, ?_, by simp [hlen]⟩
    simp [edgesFromDicts, he, hes]

/-- C3 amended: in `link_relations` only *falsy* parsed objects (e.g.
`{}`, `null`) are dropped by the `if item` filter; a truthy object
missing a non-empty `source_id` or `target_id` makes the call raise a
`ValueError` (no edge list is returned), while a response whose truthy
objects all carry both endpoints yields one edge per truthy object. -/
theorem linkRelations_amended (knowledge : List KnowledgeUnit)
    (data : List (Option RelDict)) (hk : knowledge ≠ []) :
    ((∃ d, some d ∈ data ∧
        (optTruthy d.source_id = false ∨ optTruthy d.target_id = false)) →
      ∃ msg, linkRelations knowledge data = .error msg) ∧
    ((∀ d, some d ∈ data → optTruthy d.source_id = true ∧ optTruthy d.target_id = true) →
      ∃ edges, linkRelations knowledge data = .ok edges ∧
        edges.length = (data.filterMap id).length) := by
  have hne : knowledge.isEmpty = false := by
    cases knowledge with
    | nil => exact absurd rfl hk
    | cons a l => rfl
  have hlink : linkRelations knowledge data = edgesFromDicts (data.filterMap id) := by
    unfold linkRelations
    rw [hne]
    rfl
  constructor
  · rintro ⟨d, hmem, hmiss⟩
    have hdf : d ∈ data.filterMap id := by
      rw [List.mem_filterMap]
      exact ⟨some d, hmem, rfl⟩
    obtain ⟨msg, hmsg⟩ := edgesFromDicts_error_of_missing hdf hmiss
    exact ⟨msg, by rw [hlink]; exact hmsg⟩
  · intro hall
    have hall' : ∀ d ∈ data.filterMap id,
        optTruthy d.source_id = true ∧ optTruthy d.target_id = true := by
      intro d hd
      rw [List.mem_filterMap] at hd
      obtain ⟨o, ho, hod⟩ := hd
      cases o with
      | none => exact Option.noConfusion hod
      | some d' =>
        have : d' = d := Option.some.inj hod
        subst this
        exact hall d' ho
    obtain ⟨es, hes, hlen⟩ := edgesFromDicts_ok_of_endpoints hall'
    exact ⟨es, by rw [hlink]; exact hes, hlen⟩

/-- Witness for the amended C3: a truthy object missing `target_id`
raises; a falsy entry is dropped and a complete object yields an edge. -/
theorem linkRelations_amended_witness :
    (∃ msg, linkRelations [⟨"k1", "t", "s", [], [], [], [], none⟩]
      [some { source_id := some "a" }] = .error msg) ∧
    (∃ edges, linkRelations [⟨"k1", "t", "s", [], [], [], [], none⟩]
      [none, some { source_id := some "a", target_id := some "b" }] = .ok edges ∧
      edges.length =
        ([none, some ({ source_id := some "a", target_id := some "b" } : RelDict)].filterMap
          id).length) :=
  ⟨(linkRelations_amended [⟨"k1", "t", "s", [], [], [], [], none⟩]
      [some { source_id := some "a" }] (by simp)).1
      ⟨{ source_id := some "a" }, by simp, Or.inr (by decide)⟩,
   (linkRelations_amended [⟨"k1", "t", "s", [], [], [], [], none⟩]
      [none, some { source_id := some "a", target_id := some "b" }] (by simp)).2
      (by
        intro d hd
        simp only [List.mem_cons, List.mem_singleton] at hd
        rcases hd with hd | hd | hd
        · exact Option.noConfusion hd
        · have := (Option.some.inj hd).symm
          subst this
          exact ⟨rfl, rfl⟩
        · simp at hd)⟩

/-! ## Claim C4: knowledge-coverage threshold -/

theorem baseIssues_cases (markdown : String) :
    baseIssues markdown = [] ∨ baseIssues markdown = [emptyIssue] ∨
    baseIssues markdown = [headingIssue] ∨
    baseIssues markdown = [emptyIssue, headingIssue] := by
  unfold baseIssues
  cases h1 : (pyStrip markdown == "") with
  | true => simp [h1]
  | false =>
    cases h2 : pyStartsWith (pyLStrip (pyStrip markdown)) "#" with
    | true => simp [h1, h2]
    | false => simp [h1, h2]

theorem coverage_notin_base (markdown : String) :
    coverageIssue ∉ baseIssues markdown := by
  rcases baseIssues_cases markdown with h | h | h | h <;> rw [h] <;> decide

/-- C4: the Output Validator appends the knowledge-coverage issue exactly
when, among the first 10 knowledge units, the count of non-empty titles
not found verbatim as a substring of the composed text reaches
`max 3 (n / 2 + 1)` where `n` is the number of knowledge units capped at
10. -/
theorem validateMarkdown_coverage_iff (markdown : String) (knowledge : List KnowledgeUnit) :
    coverageIssue ∈ (validateMarkdown markdown knowledge).issues ↔
      ((knowledge.take 10).filter
        (fun item => !(item.title == "") && !(pyIn item.title markdown))).length ≥
        max 3 (min knowledge.length 10 / 2 + 1) := by
  have hmap : (missingTitlesOf markdown knowledge).length =
      ((knowledge.take 10).filter
        (fun item => !(item.title == "") && !(pyIn item.title markdown))).length :=
    List.length_map _ _
  have hmin : (knowledge.take 10).length = min knowledge.length 10 := by
    rw [List.length_take, Nat.min_comm]
  show coverageIssue ∈ validateIssues markdown knowledge ↔ _
  unfold validateIssues
  by_cases hc : (missingTitlesOf markdown knowledge).length ≥
      max 3 ((knowledge.take 10).length / 2 + 1)
  · rw [if_pos hc]
    constructor
    · intro _
      rw [← hmap, ← hmin]
      exact hc
    · intro _
      exact List.mem_append_right _ (by simp)
  · rw [if_neg hc]
    constructor
    · intro hmem
      exact absurd hmem (coverage_notin_base _)
    · intro hrhs
      exact absurd (by rw [hmap, hmin]; exact hrhs) hc

/-! ## Claim C5: knowledge-unit identifier synthesis -/

theorem beq_empty_false_of_truthy {s : String} (h : optTruthy (some s) = true) :
    (s == "") = false := by
  cases hc : (s == "") with
  | true => rw [optTruthy, hc] at h; exact absurd h (by simp)
  | false => rfl

theorem trOpt_some_of_ne {s : String} (h : s ≠ "") : trOpt (some s) = some s := by
  have hbeq : (s == "") = false := by
    cases hc : (s == "") with
    | true => exact absurd (eq_of_beq hc) h
    | false => rfl
  simp [trOpt, hbeq]

theorem trOpt_of_falsy {o : Option String} (h : optTruthy o = false) : trOpt o = none := by
  cases o with
  | none => rfl
  | some s =>
    cases hc : (s == "") with
    | true => simp [trOpt, hc]
    | false => rw [optTruthy, hc] at h; exact absurd h (by simp)

theorem exists_val_of_truthy {o : Option String} (h : optTruthy o = true) :
    ∃ s, o = some s := by
  cases o with
  | none => exact absurd h (by simp [optTruthy])
  | some s => exact ⟨s, rfl⟩

theorem append_ku_ne_empty (secId : String) (n : Nat) :
    secId ++ "-ku-" ++ toString n ≠ "" := by
  intro h
  have hlen := congrArg String.length h
  rw [String.length_append, String.length_append] at hlen
  have h4 : ("-ku-" : String).length = 4 := by decide
  rw [h4] at hlen
  have h0 : ("" : String).length = 0 := rfl
  rw [h0] at hlen
  omega

theorem kuFromDict_ok_record {d' : KUDict} {s : String}
    (hscrut : (trOpt d'.id <|> trOpt d'.identifier <|> trOpt d'.title) = some s) :
    kuFromDict d' =
      .ok ⟨s, d'.title.getD "", d'.summary.getD "",
        d'.steps.filter (fun x => !(x == "")),
        d'.prerequisites.filter (fun x => !(x == "")),
        d'.related_queries.filter (fun x => !(x == "")),
        d'.tags.filter (fun x => !(x == "")),
        trOpt d'.source_section⟩ := by
  unfold kuFromDict
  rw [hscrut]

theorem processKUItem_ok (secId : String) (idx : Nat) (d : KUDict) :
    ∃ u, processKUItem secId idx d = .ok u ∧ u.source_section = trOpt (some secId) ∧
      (optTruthy d.id = false → optTruthy d.identifier = false →
        u.identifier = secId ++ "-ku-" ++ toString idx) := by
  cases hb : (!(optTruthy d.id) && !(optTruthy d.identifier)) with
  | true =>
    have hpe : processKUItem secId idx d =
        kuFromDict { { d with id := some (secId ++ "-ku-" ++ toString idx) } with
          source_section := some secId } := by
      unfold processKUItem
      rw [hb]
      simp
    have htr : trOpt (some (secId ++ "-ku-" ++ toString idx)) =
        some (secId ++ "-ku-" ++ toString idx) :=
      trOpt_some_of_ne (append_ku_ne_empty secId idx)
    have hscrut :
        (trOpt ({ { d with id := some (secId ++ "-ku-" ++ toString idx) } with
            source_section := some secId } : KUDict).id <|>
          trOpt ({ { d with id := some (secId ++ "-ku-" ++ toString idx) } with
            source_section := some secId } : KUDict).identifier <|>
          trOpt ({ { d with id := some (secId ++ "-ku-" ++ toString idx) } with
            source_section := some secId } : KUDict).title) =
          some (secId ++ "-ku-" ++ toString idx) := by
      show (trOpt (some (secId ++ "-ku-" ++ toString idx)) <|> _ <|> _) = _
      rw [htr]
      rfl
    refine ⟨_, by rw [hpe]; exact kuFromDict_ok_record hscrut, ?_, ?_⟩
    · rfl
    · intro _ _
      rfl
  | false =>
    have hor : optTruthy d.id = true ∨ optTruthy d.identifier = true := by
      cases ha : optTruthy d.id <;> cases hbi : optTruthy d.identifier <;>
        rw [ha, hbi] at hb <;> simp at hb ⊢
    have hpe : processKUItem secId idx d =
        kuFromDict { d with source_section := some secId } := by
      unfold processKUItem
      rw [hb]
      simp
    have hvac : optTruthy d.id = false → optTruthy d.identifier = false → False := by
      intro h1 h2
      rw [h1, h2] at hb
      simp at hb
    rcases hor with ha | hb2
    · obtain ⟨s, hs⟩ := exists_val_of_truthy ha
      rw [hs] at ha
      have hsne : s ≠ "" := fun hc => by
        rw [hc] at ha
        simp [optTruthy] at ha
      have hscrut :
          (trOpt ({ d with source_section := some secId } : KUDict).id <|>
            trOpt ({ d with source_section := some secId } : KUDict).identifier <|>
            trOpt ({ d with source_section := some secId } : KUDict).title) = some s := by
        show (trOpt d.id <|> _ <|> _) = _
        rw [hs, trOpt_some_of_ne hsne]
        rfl
      refine ⟨_, by rw [hpe]; exact kuFromDict_ok_record hscrut, ?_, ?_⟩
      · rfl
      · intro h1 h2
        exact absurd (hvac h1 h2) not_false
    · obtain ⟨s, hs⟩ := exists_val_of_truthy hb2
      rw [hs] at hb2
      have hsne : s ≠ "" := fun hc => by
        rw [hc] at hb2
        simp [optTruthy] at hb2
      cases hida : optTruthy d.id with
      | true =>
        obtain ⟨s0, hs0⟩ := exists_val_of_truthy hida
        rw [hs0] at hida
        have hs0ne : s0 ≠ "" := fun hc => by
          rw [hc] at hida
          simp [optTruthy] at hida
        have hscrut :
            (trOpt ({ d with source_section := some secId } : KUDict).id <|>
              trOpt ({ d with source_section := some secId } : KUDict).identifier <|>
              trOpt ({ d with source_section := some secId } : KUDict).title) = some s0 := by
          show (trOpt d.id <|> _ <|> _) = _
          rw [hs0, trOpt_some_of_ne hs0ne]
          rfl
        refine ⟨_, by rw [hpe]; exact kuFromDict_ok_record hscrut, ?_, ?_⟩
        · rfl
        · intro h1 h2
          exact Bool.noConfusion h1
      | false =>
        have hscrut :
            (trOpt ({ d with source_section := some secId } : KUDict).id <|>
              trOpt ({ d with source_section := some secId } : KUDict).identifier <|>
              trOpt ({ d with source_section := some secId } : KUDict).title) = some s := by
          show (trOpt d.id <|> trOpt d.identifier <|> _) = _
          rw [trOpt_of_falsy hida, hs, trOpt_some_of_ne hsne]
          rfl
        refine ⟨_, by rw [hpe]; exact kuFromDict_ok_record hscrut, ?_, ?_⟩
        · rfl
        · intro h1 h2
          rw [hs] at h2
          rw [hb2] at h2
          exact Bool.noConfusion h2

theorem extractKnowledgeAux_spec (secId : String) (hsec : secId ≠ "")
    (data : List (Option KUDict)) :
    ∀ start : Nat,
      ∃ us, extractKnowledgeAux secId start data = .ok us ∧
        (∀ u ∈ us, u.source_section = some secId) ∧
        (∀ i d, data.get? i = some (some d) →
          optTruthy d.id = false → optTruthy d.identifier = false →
          ∃ u ∈ us, u.identifier = secId ++ "-ku-" ++ toString (start + i) ∧
            u.source_section = some secId) := by
  induction data with
  | nil =>
    intro start
    refine ⟨[], rfl, by simp, ?_⟩
    intro i d h
    simp at h
  | cons o rest ih =>
    intro start
    obtain ⟨us, hus, hsrc, hsynth⟩ := ih (start + 1)
    cases o with
    | none =>
      refine ⟨us, ?_, hsrc, ?_⟩
      · show extractKnowledgeAux secId (start + 1) rest = .ok us
        exact hus
      · intro i d hget hid hident
        cases i with
        | zero => simp at hget
        | succ j =>
          have hj : rest.get? j = some (some d) := by simpa using hget
          obtain ⟨u, humem, huid, husrc⟩ := hsynth j d hj hid hident
          refine ⟨u, humem, ?_, husrc⟩
          rw [huid]
          congr 2
          omega
    | some d0 =>
      obtain ⟨u0, hu0, hu0src0, hu0id⟩ := processKUItem_ok secId start d0
      have hu0src : u0.source_section = some secId := by
        rw [hu0src0]
        exact trOpt_some_of_ne hsec
      refine ⟨u0 :: us, ?_, ?_, ?_⟩
      · show (match processKUItem secId start d0 with
          | Except.error e => (Except.error e : Except String (List KnowledgeUnit))
          | Except.ok u =>
            match extractKnowledgeAux secId (start + 1) rest with
            | Except.error e => Except.error e
            | Except.ok us => Except.ok (u :: us)) = Except.ok (u0 :: us)
        rw [hu0, hus]
      · intro u hu
        rcases List.mem_cons.mp hu with hc | hc
        · rw [hc]
          exact hu0src
        · exact hsrc u hc
      · intro i d hget hid hident
        cases i with
        | zero =>
          have hd : d0 = d := by simpa using hget
          subst hd
          refine ⟨u0, List.mem_cons_self _ _, ?_, hu0src⟩
          rw [hu0id hid hident, Nat.add_zero]
        | succ j =>
          have hj : rest.get? j = some (some d) := by simpa using hget
          obtain ⟨u, humem, huid, husrc⟩ := hsynth j d hj hid hident
          refine ⟨u, List.mem_cons_of_mem _ humem, ?_, husrc⟩
          rw [huid]
          congr 2
          omega

/-- C5: every parsed object lacking both `id` and `identifier` (falsy in
Python) is assigned the synthesized identifier `{section-id}-ku-{n}`
where `n` is its 1-based position in the parsed array (falsy entries
included in the count), and every resulting knowledge unit's
`source_section` equals the originating section's identifier regardless
of what the object carried. -/
theorem extractKnowledge_synthesized_ids (sec : SectionChunk)
    (data : List (Option KUDict)) (hsec : sec.identifier ≠ "") :
    ∃ us, extractKnowledge sec data = .ok us ∧
      (∀ u ∈ us, u.source_section = some sec.identifier) ∧
      (∀ i d, data.get? i = some (some d) →
        optTruthy d.id = false → optTruthy d.identifier = false →
        ∃ u ∈ us, u.identifier = sec.identifier ++ "-ku-" ++ toString (i + 1) ∧
          u.source_section = some sec.identifier) := by
  obtain ⟨us, hus, hsrc, hsynth⟩ := extractKnowledgeAux_spec sec.identifier hsec data 1
  refine ⟨us, hus, hsrc, ?_⟩
  intro i d hget hid hident
  obtain ⟨u, humem, huid, husrc⟩ := hsynth i d hget hid hident
  refine ⟨u, humem, ?_, husrc⟩
  rw [huid]
  congr 2
  omega

/-- Witness for C5 at the spec's example: section `sec-3` and two parsed
objects lacking `id`/`identifier` (the second one carrying a
`source_section` that gets overridden) yield units `sec-3-ku-1` and
`sec-3-ku-2`, both with `source_section = "sec-3"`. -/
theorem extractKnowledge_synthesized_ids_witness :
    ∃ us, extractKnowledge ⟨"sec-3", none, 1, "body", 3⟩
        [some {}, some { source_section := some "zzz" }] = .ok us ∧
      (∀ u ∈ us, u.source_section = some "sec-3") ∧
      (∀ i d, ([some {}, some { source_section := some "zzz" }] :
          List (Option KUDict)).get? i = some (some d) →
        optTruthy d.id = false → optTruthy d.identifier = false →
        ∃ u ∈ us, u.identifier = "sec-3" ++ "-ku-" ++ toString (i + 1) ∧
          u.source_section = some "sec-3") :=
  extractKnowledge_synthesized_ids ⟨"sec-3", none, 1, "body", 3⟩
    [some {}, some { source_section := some "zzz" }] (by decide)

/-! ## Claim C10: empty generation responses -/

/-- C10: a generation response that is empty (or whitespace-only) after
stripping an optional fenced code-block wrapper is parsed to the empty
list without invoking `json.loads` (so no parse error can be raised),
and on an empty parsed array the Knowledge Extractor returns zero units
and the Relation Linker returns zero edges. -/
theorem parseJson_empty_response {α : Type}
    (loads : String → Except String (JParsed α)) (text : String)
    (h : stripFence text = "") :
    parseJson loads text = .ok ([] : List α) ∧
    (∀ sec : SectionChunk, extractKnowledge sec [] = .ok []) ∧
    (∀ knowledge : List KnowledgeUnit, linkRelations knowledge [] = .ok []) := by
  refine ⟨?_, ?_, ?_⟩
  · unfold parseJson
    rw [h]
    rfl
  · intro sec
    rfl
  · intro knowledge
    unfold linkRelations
    cases hk : knowledge.isEmpty <;> rfl

/-- Witness for C10: a fenced empty response, with a `json.loads` oracle
that would fail on any input — showing the parser never reaches it. -/
theorem parseJson_empty_response_witness :
    stripFence "```json\n```" = "" ∧
    (parseJson (fun _ => Except.error "boom") "```json\n```" =
        .ok ([] : List (Option KUDict)) ∧
      (∀ sec : SectionChunk, extractKnowledge sec [] = .ok []) ∧
      (∀ knowledge : List KnowledgeUnit, linkRelations knowledge [] = .ok [])) :=
  ⟨by decide,
    parseJson_empty_response (fun _ => Except.error "boom") "```json\n```" (by decide)⟩

/-! ## Claim C6: invalid report blocks persistence -/

theorem extractKnowledgeAux_isOk (secId : String) (data : List (Option KUDict)) :
    ∀ start : Nat, ∃ us, extractKnowledgeAux secId start data = .ok us := by
  induction data with
  | nil => exact fun _ => ⟨[], rfl⟩
  | cons o rest ih =>
    intro start
    obtain ⟨us, hus⟩ := ih (start + 1)
    cases o with
    | none => exact ⟨us, hus⟩
    | some d0 =>
      obtain ⟨u0, hu0, -, -⟩ := processKUItem_ok secId start d0
      refine ⟨u0 :: us, ?_⟩
      show (match processKUItem secId start d0 with
        | Except.error e => (Except.error e : Except String (List KnowledgeUnit))
        | Except.ok u =>
          match extractKnowledgeAux secId (start + 1) rest with
          | Except.error e => Except.error e
          | Except.ok us => Except.ok (u :: us)) = Except.ok (u0 :: us)
      rw [hu0, hus]

theorem extractAllKnowledge_isOk (resp : Nat → List (Option KUDict))
    (sections : List SectionChunk) :
    ∀ i : Nat, ∃ ku, extractAllKnowledge resp i sections = .ok ku := by
  induction sections with
  | nil => exact fun _ => ⟨[], rfl⟩
  | cons s rest ih =>
    intro i
    obtain ⟨us, hus⟩ := extractKnowledgeAux_isOk s.identifier (resp i) 1
    obtain ⟨ku, hku⟩ := ih (i + 1)
    refine ⟨us ++ ku, ?_⟩
    show (match extractKnowledge s (resp i) with
      | Except.error e => (Except.error e : Except String (List KnowledgeUnit))
      | Except.ok us =>
        match extractAllKnowledge resp (i + 1) rest with
        | Except.error e => Except.error e
        | Except.ok more => Except.ok (us ++ more)) = Except.ok (us ++ ku)
    rw [show extractKnowledge s (resp i) = Except.ok us from hus, hku]

theorem linkRelations_isOk_of_endpoints (knowledge : List KnowledgeUnit)
    (data : List (Option RelDict))
    (h : ∀ d, some d ∈ data → optTruthy d.source_id = true ∧ optTruthy d.target_id = true) :
    ∃ rels, linkRelations knowledge data = .ok rels := by
  unfold linkRelations
  cases hk : knowledge.isEmpty with
  | true => exact ⟨[], rfl⟩
  | false =>
    have hall : ∀ d ∈ data.filterMap id,
        optTruthy d.source_id = true ∧ optTruthy d.target_id = true := by
      intro d hd
      rw [List.mem_filterMap] at hd
      obtain ⟨o, ho, hod⟩ := hd
      cases o with
      | none => exact Option.noConfusion hod
      | some d' =>
        have he : d' = d := Option.some.inj hod
        subst he
        exact h d' ho
    obtain ⟨es, hes, -⟩ := edgesFromDicts_ok_of_endpoints hall
    exact ⟨es, hes⟩

theorem runStages_cons_ok {name : String} {f : Stage} {rest : List (String × Stage)}
    {st st2 : DocState} {ws : List WriteEvent} (h : f st = .ok (st2, ws)) :
    runStages ((name, f) :: rest) st =
      ⟨(runStages rest st2).result, ws ++ (runStages rest st2).writes,
        name :: (runStages rest st2).executed⟩ := by
  simp [runStages, h]

theorem runStages_cons_err {name : String} {f : Stage} {rest : List (String × Stage)}
    {st : DocState} {e : String} (h : f st = .error e) :
    runStages ((name, f) :: rest) st = ⟨.error e, [], [name]⟩ := by
  simp [runStages, h]

/-- C6: in any pipeline run whose Output Validator report is invalid (at
least one issue), the validation node raises and the persistence node is
never executed: the run ends in an error after exactly the seven nodes up
to `validate_output`, with no write event — neither the Markdown file nor
the companion record. -/
theorem pipeline_invalid_report_no_persist (doc : HtmlDoc) (oracle : LLMOracle)
    (meta : DocMeta)
    (hRel : ∀ d, some d ∈ oracle.relData →
      optTruthy d.source_id = true ∧ optTruthy d.target_id = true)
    (hInvalid : ∀ ku, pipelineKnowledgeOf doc oracle = .ok ku →
      (validateMarkdown (pyStrip oracle.composed) ku).valid = false) :
    ∃ msg, runPipeline doc oracle meta =
      ⟨Except.error msg, [],
        ["load_html", "parse_html", "summarize_structure", "extract_knowledge",
         "link_relations", "compose_markdown", "validate_output"]⟩ := by
  obtain ⟨ku, hku⟩ := extractAllKnowledge_isOk oracle.kuData ((extractSectionsAndAssets doc).1) 0
  obtain ⟨rels, hrels⟩ := linkRelations_isOk_of_endpoints ku oracle.relData hRel
  have hval : (validateMarkdown (pyStrip oracle.composed) ku).valid = false :=
    hInvalid ku hku
  refine ⟨"Markdown 検証に失敗しました: " ++
    pyJoin " / " (validateMarkdown (pyStrip oracle.composed) ku).issues, ?_⟩
  have e1 : loadHtmlStage doc {} = .ok ({ html := some doc }, []) := rfl
  have e2 : parseHtmlStage { html := some doc } =
      .ok ({ html := some doc,
             sections := (extractSectionsAndAssets doc).1,
             assets := (extractSectionsAndAssets doc).2 }, []) := rfl
  have e3 : summarizeStage
      { html := some doc,
        sections := (extractSectionsAndAssets doc).1,
        assets := (extractSectionsAndAssets doc).2 } =
      .ok ({ html := some doc,
             sections := (extractSectionsAndAssets doc).1,
             assets := (extractSectionsAndAssets doc).2,
             outline := some (buildOutline (extractSectionsAndAssets doc).1) }, []) := rfl
  have e4 : extractKnowledgeStage oracle
      { html := some doc,
        sections := (extractSectionsAndAssets doc).1,
        assets := (extractSectionsAndAssets doc).2,
        outline := some (buildOutline (extractSectionsAndAssets doc).1) } =
      .ok ({ html := some doc,
             sections := (extractSectionsAndAssets doc).1,
             assets := (extractSectionsAndAssets doc).2,
             outline := some (buildOutline (extractSectionsAndAssets doc).1),
             knowledge := ku }, []) := by
    unfold extractKnowledgeStage
    rw [show extractAllKnowledge oracle.kuData 0
        (DocState.sections
          { html := some doc,
            sections := (extractSectionsAndAssets doc).1,
            assets := (extractSectionsAndAssets doc).2,
            outline := some (buildOutline (extractSectionsAndAssets doc).1) }) =
        Except.ok ku from hku]
  have e5 : linkRelationsStage oracle
      { html := some doc,
        sections := (extractSectionsAndAssets doc).1,
        assets := (extractSectionsAndAssets doc).2,
        outline := some (buildOutline (extractSectionsAndAssets doc).1),
        knowledge := ku } =
      .ok ({ html := some doc,
             sections := (extractSectionsAndAssets doc).1,
             assets := (extractSectionsAndAssets doc).2,
             outline := some (buildOutline (extractSectionsAndAssets doc).1),
             knowledge := ku,
             relationships := rels }, []) := by
    unfold linkRelationsStage
    rw [show linkRelations
        (DocState.knowledge
          { html := some doc,
            sections := (extractSectionsAndAssets doc).1,
            assets := (extractSectionsAndAssets doc).2,
            outline := some (buildOutline (extractSectionsAndAssets doc).1),
            knowledge := ku }) oracle.relData = Except.ok rels from hrels]
  have e6 : composeStage oracle
      { html := some doc,
        sections := (extractSectionsAndAssets doc).1,
        assets := (extractSectionsAndAssets doc).2,
        outline := some (buildOutline (extractSectionsAndAssets doc).1),
        knowledge := ku,
        relationships := rels } =
      .ok ({ html := some doc,
             sections := (extractSectionsAndAssets doc).1,
             assets := (extractSectionsAndAssets doc).2,
             outline := some (buildOutline (extractSectionsAndAssets doc).1),
             knowledge := ku,
             relationships := rels,
             markdown := some (pyStrip oracle.composed) }, []) := rfl
  have e7 : validateStage
      { html := some doc,
        sections := (extractSectionsAndAssets doc).1,
        assets := (extractSectionsAndAssets doc).2,
        outline := some (buildOutline (extractSectionsAndAssets doc).1),
        knowledge := ku,
        relationships := rels,
        markdown := some (pyStrip oracle.composed) } =
      .error ("Markdown 検証に失敗しました: " ++
        pyJoin " / " (validateMarkdown (pyStrip oracle.composed) ku).issues) := by
    show (if (validateMarkdown (pyStrip oracle.composed) ku).valid
      then _ else _) = _
    rw [hval]
    simp
  show runStages (pipelineStages doc oracle meta) {} = _
  unfold pipelineStages
  rw [runStages_cons_ok e1, runStages_cons_ok e2, runStages_cons_ok e3,
    runStages_cons_ok e4, runStages_cons_ok e5, runStages_cons_ok e6,
    runStages_cons_err e7]
  simp

/-- Witness for C6: a run whose composed text lacks the leading heading
is rejected by the validator and produces no write events. -/
theorem pipeline_invalid_report_no_persist_witness :
    ∃ msg, runPipeline ⟨[.para "hello"], "hello", []⟩
        ⟨fun _ => [], [], "no heading"⟩ ⟨"/in/a.html", "/out/a.md", none, none⟩ =
      ⟨Except.error msg, [],
        ["load_html", "parse_html", "summarize_structure", "extract_knowledge",
         "link_relations", "compose_markdown", "validate_output"]⟩ :=
  pipeline_invalid_report_no_persist ⟨[.para "hello"], "hello", []⟩
    ⟨fun _ => [], [], "no heading"⟩ ⟨"/in/a.html", "/out/a.md", none, none⟩
    (by intro d hd; exact absurd hd (by simp))
    (by
      intro ku h
      have hku : ku = [] := by
        have h0 : pipelineKnowledgeOf ⟨[.para "hello"], "hello", []⟩
            ⟨fun _ => [], [], "no heading"⟩ = .ok [] := rfl
        rw [h0] at h
        exact (Except.ok.inj h).symm
      rw [hku]
      decide)

/-! ## Claims C7 and C8: batch runner -/

theorem strContains_appendLeft {s pat : String} (t : String) (h : StrContains s pat) :
    StrContains (t ++ s) pat := by
  obtain ⟨a, b, hab⟩ := h
  refine ⟨t.data ++ a, b, ?_⟩
  rw [String.data_append, hab]
  simp [List.append_assoc]

theorem strContains_appendRight {s pat : String} (t : String) (h : StrContains s pat) :
    StrContains (s ++ t) pat := by
  obtain ⟨a, b, hab⟩ := h
  refine ⟨a, b ++ t.data, ?_⟩
  rw [String.data_append, hab]
  simp [List.append_assoc]

theorem strContains_self (s : String) : StrContains s s := ⟨[], [], by simp⟩

theorem strContains_trans {s m pat : String} (h1 : StrContains s m)
    (h2 : StrContains m pat) : StrContains s pat := by
  obtain ⟨a, b, hab⟩ := h1
  obtain ⟨c, d, hcd⟩ := h2
  refine ⟨a ++ c, d ++ b, ?_⟩
  rw [hab, hcd]
  simp [List.append_assoc]

theorem strContains_pyJoin {sep : String} {parts : List String} {x : String}
    (h : x ∈ parts) : StrContains (pyJoin sep parts) x := by
  induction parts with
  | nil => simp at h
  | cons y rest ih =>
    cases rest with
    | nil =>
      have hx : x = y := by simpa using h
      subst hx
      exact strContains_self x
    | cons z rest2 =>
      rcases List.mem_cons.mp h with hc | hc
      · subst hc
        exact strContains_appendRight _ (strContains_appendRight _ (strContains_self x))
      · exact strContains_appendLeft _ (ih hc)

theorem lookupGroup_addToGroups (p path inp : String)
    (gs : List (String × List String)) :
    lookupGroup p (addToGroups gs path inp) =
      if path == p then lookupGroup p gs ++ [inp] else lookupGroup p gs := by
  induction gs with
  | nil =>
    show (if path == p then [inp] else []) = _
    cases h : (path == p) <;> simp [lookupGroup, h]
  | cons g rest ih =>
    obtain ⟨q, xs⟩ := g
    show lookupGroup p
      (if q == path then (q, xs ++ [inp]) :: rest else (q, xs) :: addToGroups rest path inp) = _
    cases hqpath : (q == path) with
    | true =>
      have hq : q = path := eq_of_beq hqpath
      subst hq
      cases hqp : (q == p) <;> simp [lookupGroup, hqp]
    | false =>
      cases hqp : (q == p) with
      | true =>
        have hq : q = p := eq_of_beq hqp
        have hpp : (path == p) = false := by
          cases hpc : (path == p) with
          | true =>
            have : path = p := eq_of_beq hpc
            rw [← this] at hq
            rw [hq] at hqpath
            rw [beq_self_eq_true] at hqpath
            exact Bool.noConfusion hqpath
          | false => rfl
        simp [lookupGroup, hqp, hpp]
      | false =>
        simp only [lookupGroup, hqp, if_false]
        rw [ih]
        cases hpp : (path == p) <;> simp [lookupGroup, hqp, hpp]

theorem lookupGroup_buildCollisions (outputDir p : String) (files : List FileCfg) :
    ∀ gs, lookupGroup p
        (List.foldl (fun gs f => addToGroups gs (resolveOutputPath f outputDir) f.input)
          gs files) =
      lookupGroup p gs ++
        (files.filter (fun f => resolveOutputPath f outputDir == p)).map
          (fun f => f.input) := by
  induction files with
  | nil =>
    intro gs
    simp
  | cons f rest ih =>
    intro gs
    show lookupGroup p
      (List.foldl _ (addToGroups gs (resolveOutputPath f outputDir) f.input) rest) = _
    rw [ih, lookupGroup_addToGroups]
    cases hf : (resolveOutputPath f outputDir == p) with
    | true => simp [List.filter_cons, hf, List.append_assoc]
    | false => simp [List.filter_cons, hf]

theorem lookupGroup_mem {p : String} {gs : List (String × List String)}
    (h : lookupGroup p gs ≠ []) : (p, lookupGroup p gs) ∈ gs := by
  induction gs with
  | nil => exact absurd rfl h
  | cons g rest ih =>
    obtain ⟨q, xs⟩ := g
    cases hq : (q == p) with
    | true =>
      have hqe : q = p := eq_of_beq hq
      subst hqe
      have hl : lookupGroup q ((q, xs) :: rest) = xs := by simp [lookupGroup]
      rw [hl]
      exact List.mem_cons_self _ _
    | false =>
      have hl : lookupGroup p ((q, xs) :: rest) = lookupGroup p rest := by
        simp [lookupGroup, hq]
      rw [hl] at h ⊢
      exact List.mem_cons_of_mem _ (ih h)

theorem mem_insertByKey {x y : String × List String} {l : List (String × List String)} :
    y ∈ insertByKey x l ↔ y = x ∨ y ∈ l := by
  induction l with
  | nil => simp [insertByKey]
  | cons a rest ih =>
    show y ∈ (if x.1 < a.1 then x :: a :: rest else a :: insertByKey x rest) ↔ _
    by_cases hc : x.1 < a.1
    · rw [if_pos hc]
      simp
    · rw [if_neg hc]
      simp only [List.mem_cons, ih]
      tauto

theorem mem_sortGroups {x : String × List String} {l : List (String × List String)}
    (h : x ∈ l) : x ∈ sortGroups l := by
  induction l with
  | nil => simp at h
  | cons a rest ih =>
    show x ∈ insertByKey a (sortGroups rest)
    rw [mem_insertByKey]
    rcases List.mem_cons.mp h with hc | hc
    · exact Or.inl hc
    · exact Or.inr (ih hc)

/-- C7: when two configured documents resolve to the same final output
path, `run` raises a configuration error whose message names both source
input locations, and it does so before any document's pipeline is
invoked (the invocation log of the batch is empty). -/
theorem duplicate_outputs_config_error (pre mid post : List FileCfg) (f1 f2 : FileCfg)
    (outputDir : String) (inputExists : String → Bool)
    (pipelineRun : Nat → Except String (String × String))
    (hcol : resolveOutputPath f1 outputDir = resolveOutputPath f2 outputDir) :
    ∃ msg,
      ensureUniqueOutputPaths (pre ++ f1 :: mid ++ f2 :: post) outputDir = .error msg ∧
      StrContains msg f1.input ∧ StrContains msg f2.input ∧
      runBatch (pre ++ f1 :: mid ++ f2 :: post) outputDir inputExists pipelineRun =
        (.error msg, []) := by
  have hp1 : (resolveOutputPath f1 outputDir == resolveOutputPath f1 outputDir) = true :=
    beq_self_eq_true _
  have hp2 : (resolveOutputPath f2 outputDir == resolveOutputPath f1 outputDir) = true := by
    rw [← hcol]
    exact beq_self_eq_true _
  have hxs : lookupGroup (resolveOutputPath f1 outputDir)
      (buildCollisions (pre ++ f1 :: mid ++ f2 :: post) outputDir) =
      ((pre ++ f1 :: mid ++ f2 :: post).filter
        (fun f => resolveOutputPath f outputDir == resolveOutputPath f1 outputDir)).map
        (fun f => f.input) := by
    have := lookupGroup_buildCollisions outputDir (resolveOutputPath f1 outputDir)
      (pre ++ f1 :: mid ++ f2 :: post) []
    simpa [buildCollisions, lookupGroup] using this
  have hmem1 : f1.input ∈ lookupGroup (resolveOutputPath f1 outputDir)
      (buildCollisions (pre ++ f1 :: mid ++ f2 :: post) outputDir) := by
    rw [hxs]
    refine List.mem_map_of_mem _ (List.mem_filter.mpr ⟨?_, hp1⟩)
    simp
  have hmem2 : f2.input ∈ lookupGroup (resolveOutputPath f1 outputDir)
      (buildCollisions (pre ++ f1 :: mid ++ f2 :: post) outputDir) := by
    rw [hxs]
    refine List.mem_map_of_mem _ (List.mem_filter.mpr ⟨?_, hp2⟩)
    simp
  have hlen : 1 < (lookupGroup (resolveOutputPath f1 outputDir)
      (buildCollisions (pre ++ f1 :: mid ++ f2 :: post) outputDir)).length := by
    rw [hxs, List.length_map]
    simp only [List.filter_append, List.filter_cons, hp1, hp2]
    simp [List.length_append]
    omega
  have hne : lookupGroup (resolveOutputPath f1 outputDir)
      (buildCollisions (pre ++ f1 :: mid ++ f2 :: post) outputDir) ≠ [] := by
    intro hc
    rw [hc] at hlen
    simp at hlen
  have hg0 : (resolveOutputPath f1 outputDir,
      lookupGroup (resolveOutputPath f1 outputDir)
        (buildCollisions (pre ++ f1 :: mid ++ f2 :: post) outputDir)) ∈
      buildCollisions (pre ++ f1 :: mid ++ f2 :: post) outputDir :=
    lookupGroup_mem hne
  have hdup : (resolveOutputPath f1 outputDir,
      lookupGroup (resolveOutputPath f1 outputDir)
        (buildCollisions (pre ++ f1 :: mid ++ f2 :: post) outputDir)) ∈
      (buildCollisions (pre ++ f1 :: mid ++ f2 :: post) outputDir).filter
        (fun g => 1 < g.2.length) :=
    List.mem_filter.mpr ⟨hg0, by simpa using hlen⟩
  have hdupne : ((buildCollisions (pre ++ f1 :: mid ++ f2 :: post) outputDir).filter
      (fun g => 1 < g.2.length)).isEmpty = false := by
    cases hc : ((buildCollisions (pre ++ f1 :: mid ++ f2 :: post) outputDir).filter
        (fun g => 1 < g.2.length)) with
    | nil => rw [hc] at hdup; simp at hdup
    | cons a l => rfl
  have herr : ensureUniqueOutputPaths (pre ++ f1 :: mid ++ f2 :: post) outputDir =
      .error
        ("同じ出力ファイルに複数の HTML が割り当てられています。`output` を変更して回避してください。対象: "
          ++ duplicateSummary
            ((buildCollisions (pre ++ f1 :: mid ++ f2 :: post) outputDir).filter
              (fun g => 1 < g.2.length))) := by
    unfold ensureUniqueOutputPaths
    rw [hdupne]
    simp
  have hentry : StrContains
      (duplicateSummary
        ((buildCollisions (pre ++ f1 :: mid ++ f2 :: post) outputDir).filter
          (fun g => 1 < g.2.length)))
      (resolveOutputPath f1 outputDir ++ ": " ++
        pyJoin ", " (lookupGroup (resolveOutputPath f1 outputDir)
          (buildCollisions (pre ++ f1 :: mid ++ f2 :: post) outputDir))) := by
    apply strContains_pyJoin
    exact List.mem_map_of_mem _ (mem_sortGroups hdup)
  refine ⟨_, herr, ?_, ?_, ?_⟩
  · apply strContains_appendLeft
    exact strContains_trans hentry
      (strContains_appendLeft (resolveOutputPath f1 outputDir ++ ": ")
        (strContains_pyJoin hmem1))
  · apply strContains_appendLeft
    exact strContains_trans hentry
      (strContains_appendLeft (resolveOutputPath f1 outputDir ++ ": ")
        (strContains_pyJoin hmem2))
  · unfold runBatch
    rw [herr]

/-- Witness for C7: two inputs whose default outputs are both
`manual.md` under the output directory. -/
theorem duplicate_outputs_config_error_witness :
    ∃ msg,
      ensureUniqueOutputPaths
        ([] ++ (⟨"/x/manual.html", none, none, none⟩ : FileCfg) ::
          [] ++ (⟨"/y/manual.html", none, none, none⟩ : FileCfg) :: []) "/out" =
        .error msg ∧
      StrContains msg "/x/manual.html" ∧ StrContains msg "/y/manual.html" ∧
      runBatch
        ([] ++ (⟨"/x/manual.html", none, none, none⟩ : FileCfg) ::
          [] ++ (⟨"/y/manual.html", none, none, none⟩ : FileCfg) :: []) "/out"
        (fun _ => true) (fun _ => Except.error "e") =
        (.error msg, []) :=
  duplicate_outputs_config_error [] [] [] ⟨"/x/manual.html", none, none, none⟩
    ⟨"/y/manual.html", none, none, none⟩ "/out" (fun _ => true)
    (fun _ => Except.error "e") (by decide)

theorem runDocs_eq_mapIdx (inputExists : String → Bool)
    (pipelineRun : Nat → Except String (String × String)) (files : List FileCfg) :
    ∀ i0 : Nat, (runDocs inputExists pipelineRun i0 files).1 =
      files.mapIdx (fun k f => expectedDocResult inputExists pipelineRun (i0 + k) f) := by
  induction files with
  | nil =>
    intro i0
    simp [runDocs]
  | cons f rest ih =>
    intro i0
    have hstep : (runDocs inputExists pipelineRun i0 (f :: rest)).1 =
        expectedDocResult inputExists pipelineRun i0 f ::
          (runDocs inputExists pipelineRun (i0 + 1) rest).1 := by
      cases hex : inputExists f.input with
      | true =>
        cases hpr : pipelineRun i0 with
        | ok paths => simp [runDocs, hex, hpr, expectedDocResult]
        | error e => simp [runDocs, hex, hpr, expectedDocResult]
      | false => simp [runDocs, hex, expectedDocResult]
    rw [hstep, ih (i0 + 1), List.mapIdx_cons]
    congr 1
    congr 1
    funext k g
    have harith : i0 + 1 + k = i0 + (k + 1) := by omega
    rw [harith]

/-- C8: when the duplicate-output check passes, the batch driver produces
exactly one result per configured document, and each document's result is
a function of that document's own data alone — a missing input or an
exception inside one document's pipeline yields a failed result for that
document only, while every other document is still processed. -/
theorem runBatch_isolates_failures (files : List FileCfg) (outputDir : String)
    (inputExists : String → Bool) (pipelineRun : Nat → Except String (String × String))
    (h : ensureUniqueOutputPaths files outputDir = .ok ()) :
    ∃ log, runBatch files outputDir inputExists pipelineRun =
        (.ok (files.mapIdx fun i f => expectedDocResult inputExists pipelineRun i f),
          log) ∧
      (files.mapIdx fun i f => expectedDocResult inputExists pipelineRun i f).length =
        files.length := by
  refine ⟨(runDocs inputExists pipelineRun 0 files).2, ?_, ?_⟩
  · unfold runBatch
    rw [h]
    have hz : (fun k f => expectedDocResult inputExists pipelineRun (0 + k) f) =
        (fun i f => expectedDocResult inputExists pipelineRun i f) := by
      funext k f
      rw [Nat.zero_add]
    show (Except.ok (runDocs inputExists pipelineRun 0 files).1,
      (runDocs inputExists pipelineRun 0 files).2) = _
    rw [show (runDocs inputExists pipelineRun 0 files).1 =
      files.mapIdx (fun k f => expectedDocResult inputExists pipelineRun (0 + k) f) from
      runDocs_eq_mapIdx inputExists pipelineRun files 0, hz]
  · exact List.length_mapIdx

/-- Witness for C8: a two-document batch where the first input is missing
and the second pipeline succeeds; both results are present. -/
theorem runBatch_isolates_failures_witness :
    ∃ log, runBatch [⟨"/x/a.html", none, none, none⟩, ⟨"/y/b.html", none, none, none⟩]
        "/out" (fun p => p == "/y/b.html")
        (fun _ => Except.ok ("/out/b.md", "/out/b.json")) =
        (.ok ([⟨"/x/a.html", none, none, none⟩,
            (⟨"/y/b.html", none, none, none⟩ : FileCfg)].mapIdx fun i f =>
          expectedDocResult (fun p => p == "/y/b.html")
            (fun _ => Except.ok ("/out/b.md", "/out/b.json")) i f), log) ∧
      ([⟨"/x/a.html", none, none, none⟩,
          (⟨"/y/b.html", none, none, none⟩ : FileCfg)].mapIdx fun i f =>
        expectedDocResult (fun p => p == "/y/b.html")
          (fun _ => Except.ok ("/out/b.md", "/out/b.json")) i f).length =
        [⟨"/x/a.html", none, none, none⟩,
          (⟨"/y/b.html", none, none, none⟩ : FileCfg)].length :=
  runBatch_isolates_failures
    [⟨"/x/a.html", none, none, none⟩, ⟨"/y/b.html", none, none, none⟩] "/out"
    (fun p => p == "/y/b.html") (fun _ => Except.ok ("/out/b.md", "/out/b.json")) rfl

end Html2doc
